import Mathlib

/-!
Verification of the OpenPlanter client layer specification against the code.

Two developments:

* `OpenPlanter.Model` — the streaming model client (payload construction,
  streaming, retry/degradation).  The client implementation itself is not
  part of the source tree (only its tests are), so the data model and the
  `complete` state machine are modelled from the specification, with the
  tests in `tests/test_model.py` fixing the concrete contract points
  (field names, error-body shapes, the z.ai endpoint fallback, the
  `rate_limit` finish reason, the medium → 4096 thinking budget).

* `OpenPlanter.Demo` — a shallow embedding of `agent/demo.py`
  (`DemoCensor.censor_text` and its helpers), translated line by line from
  the source.  Python strings are embedded as `List Char`; the two entity
  regexes are embedded as executable matchers that reproduce the
  backtracking behaviour of Python `re` on these particular patterns
  (greedy `[a-z]+` runs, greedy repetition groups with the single
  viable one-repetition drop at a failing trailing `\b`, alternation tried
  left to right).  `\w` (used by `\b`) is modelled on its ASCII fragment
  (`[A-Za-z0-9_]`); all characters mentioned by the patterns and by the
  replacement tables are ASCII except U+2588, which is not a word
  character in either semantics.
-/

namespace OpenPlanter

namespace Model

/-- Modelled from the spec: a minimal JSON value tree, rich enough for the
vendor payload bodies of §4.1 and §6. -/
inductive JsonV where
  | str (s : String)
  | num (n : Int)
  | bool (b : Bool)
  | arr (xs : List JsonV)
  | obj (fields : List (String × JsonV))

-- Modelled from the spec: deterministic JSON serialization, so that
-- "byte-identical JSON bodies" can be stated.
mutual

def serializeV : JsonV → String
  | .str s => "\x22" ++ s ++ "\x22"
  | .num n => toString n
  | .bool b => if b then ("true") else ("false")
  | .arr xs => "[" ++ serializeArr xs ++ "]"
  | .obj fs => "\x7b" ++ serializeFields fs ++ "\x7d"

def serializeArr : List JsonV → String
  | [] => ""
  | [x] => serializeV x
  | x :: xs => serializeV x ++ "," ++ serializeArr xs

def serializeFields : List (String × JsonV) → String
  | [] => ""
  | [(k, v)] => "\x22" ++ k ++ "\x22:" ++ serializeV v
  | (k, v) :: fs => "\x22" ++ k ++ "\x22:" ++ serializeV v ++ "," ++ serializeFields fs

end

/-- Look up a top-level field of a JSON object. -/
def getKey (k : String) : JsonV → Option JsonV
  | .obj fs => match fs.filter (fun p => p.1 == k) with
    | [] => none
    | p :: _ => some p.2
  | _ => none

/-- Remove a top-level field of a JSON object, leaving everything else as is. -/
def eraseKey (k : String) : JsonV → JsonV
  | .obj fs => .obj (fs.filter (fun p => !(p.1 == k)))
  | j => j

/-- Modelled from the spec (§3): a Message has a role and content. -/
structure Message where
  role : String
  content : String
  deriving DecidableEq

/-- Modelled from the spec (§3): a Conversation is an ordered sequence of
Messages. -/
abbrev Conversation := List Message

/-- Modelled from the spec (§3): the request configuration of one client
instance. -/
structure RequestConfig where
  model : String
  apiKey : String
  baseUrl : String
  provider : String
  reasoningEffort : Option String
  thinkingType : Option String
  maxRetries : Nat
  deriving DecidableEq

/-- Modelled from the spec (§9): vendor dispatch over the two payload
families. -/
inductive Vendor where
  | openai
  | anthropic
  deriving DecidableEq

/-- Modelled from the spec (§4.4): the request field a vendor may reject and
that the degradation controller then strips. -/
def strippableField : Vendor → String
  | .openai => "reasoning_effort"
  | .anthropic => "thinking"

/-- Infix (substring) test on character lists. -/
def hasSeg : List Char → List Char → Bool
  | s, seg =>
    seg.isPrefixOf s ||
      match s with
      | [] => false
      | _ :: cs => hasSeg cs seg

/-- Substring test, used for the purely structural matching of §4.4. -/
def containsSeg (s seg : String) : Bool :=
  hasSeg s.toList seg.toList

/-- Modelled from the spec (§4.4): an HTTPModelError body "names" a rejected
field when the field name occurs in the body text. -/
def bodyNames (field body : String) : Bool :=
  containsSeg body field

/-- Modelled from the spec (§4.1): the OpenAI-compatible payload builder; a
role/content message array, `reasoning_effort` unless stripped by a prior
degradation, and a thinking block when a thinking mode is configured. -/
def buildOpenAIPayload (cfg : RequestConfig) (conv : Conversation) (strip : Bool) : JsonV :=
  .obj (
    [("model", .str cfg.model),
     ("messages", .arr (conv.map (fun m => .obj [("role", .str m.role), ("content", .str m.content)]))),
     ("stream", .bool true)]
    ++ (match cfg.reasoningEffort, strip with
        | some e, false => [("reasoning_effort", .str e)]
        | _, _ => [])
    ++ (match cfg.thinkingType with
        | some t => [("thinking", .obj [("type", .str t)])]
        | none => []))

/-- Modelled from the spec and `test_anthropic_opus46_uses_adaptive_thinking`:
the capability class of adaptive-thinking models. -/
def adaptiveThinkingModels : List String := ["claude-opus-4-6"]

/-- Modelled from the spec (§4.1, §9): thinking-token budget per
reasoning-effort level.  Only medium → 4096 is evidenced
(`test_anthropic_payload_includes_thinking_budget`); the low/high entries are
a deliberate completion of the table as §9 instructs. -/
def thinkingBudget : String → Int
  | "low" => 2048
  | "medium" => 4096
  | "high" => 8192
  | _ => 4096

/-- Modelled from the spec (§4.1): the Anthropic payload builder; the system
message is separated from the turn array; adaptive-thinking models get
`thinking: adaptive` plus `output_config.effort` and no `temperature`; all
other models get manual thinking with a `budget_tokens` derived from the
reasoning-effort level. -/
def buildAnthropicPayload (cfg : RequestConfig) (conv : Conversation) (strip : Bool) : JsonV :=
  let effort := cfg.reasoningEffort.getD ("medium")
  let sys := String.join ((conv.filter (fun m => m.role == "system")).map (fun m => m.content))
  let turns := conv.filter (fun m => !(m.role == "system"))
  .obj (
    [("model", .str cfg.model),
     ("system", .str sys),
     ("messages", .arr (turns.map (fun m => .obj [("role", .str m.role), ("content", .str m.content)]))),
     ("max_tokens", .num 8192)]
    ++ (if adaptiveThinkingModels.contains cfg.model then
          (if strip then [] else [("thinking", .obj [("type", .str "adaptive")])])
          ++ [("output_config", .obj [("effort", .str effort)])]
        else
          (if strip then [] else
            [("thinking", .obj [("type", .str "enabled"), ("budget_tokens", .num (thinkingBudget effort))])])
          ++ [("temperature", .num 0)]))

/-- Modelled from the spec: vendor dispatch of the payload builder; the
strip flag removes the vendor's strippable field (§4.4). -/
def buildPayload (v : Vendor) (cfg : RequestConfig) (conv : Conversation) (strip : Bool) : JsonV :=
  match v with
  | .openai => buildOpenAIPayload cfg conv strip
  | .anthropic => buildAnthropicPayload cfg conv strip

/-- Modelled from the spec (§6): the fixed completions path per vendor. -/
def requestUrl (v : Vendor) (base : String) : String :=
  match v with
  | .openai => base ++ "/chat/completions"
  | .anthropic => base ++ "/v1/messages"

/-- Modelled from the spec (§4.2, §6): one incremental response frame, with
the delta fields the engine extracts. -/
structure Frame where
  content : Option String
  reasoningContent : Option String
  finishReason : Option String
  deriving DecidableEq

/-- Modelled from the spec (§4.3): what one HTTP exchange can produce: a
frame stream, or a non-2xx response with status and body. -/
inductive ServerResult where
  | ok (frames : List Frame)
  | httpErr (status : Nat) (body : String)

/-- Modelled from the spec (§7): the error taxonomy. -/
inductive ClientError where
  | httpError (status : Nat) (body : String)
  | rateLimit
  | modelError (msg : String)
  deriving DecidableEq

/-- Modelled from the spec (§3): the assembled result of one successful
`complete()` call. -/
structure Turn where
  text : String
  finishReason : Option String
  deriving DecidableEq

/-- Modelled from the spec (§4.2): the aggregate state of one stream: the
ordered delta events (kind, fragment), the concatenated text, the terminal
finish reason. -/
structure StreamOutcome where
  deltas : List (String × String)
  text : String
  finishReason : Option String

/-- Modelled from the spec (§4.2): per frame, `delta.reasoning_content`
becomes a thinking delta and `delta.content` a text delta; text deltas are
folded into the aggregate text; the last reported finish reason wins. -/
def stepFrame (acc : StreamOutcome) (fr : Frame) : StreamOutcome :=
  { deltas := acc.deltas
      ++ (match fr.reasoningContent with | some s => [("thinking", s)] | none => [])
      ++ (match fr.content with | some s => [("text", s)] | none => []),
    text := acc.text ++ (match fr.content with | some s => s | none => ""),
    finishReason := match fr.finishReason with | some r => some r | none => acc.finishReason }

/-- Modelled from the spec (§4.2): consume the ordered frames of one
response and assemble the stream outcome. -/
def runStream (frames : List Frame) : StreamOutcome :=
  frames.foldl stepFrame ⟨[], "", none⟩

/-- Modelled from the spec (§4.3) and
`test_openai_finish_reason_rate_limit_raises_rate_limit_error`: the terminal
reasons that signal vendor throttling. -/
def rateLimitReasons : List String := ["rate_limit"]

/-- Concatenation, in emission order, of the fragments of the text-kind
deltas of one call. -/
def textConcat : List (String × String) → String
  | [] => ""
  | d :: ds => (if d.1 == "text" then d.2 else "") ++ textConcat ds

/-- Outcome of a `complete()` call. -/
inductive Outcome where
  | ok (t : Turn)
  | err (e : ClientError)

/-- Modelled from the spec (§4.5, §5): the observable trace of one
`complete()` call: its outcome, every (url, payload) attempt in order, the
delta events handed to `on_content_delta` in order, the values handed to
`on_base_url_persist` in order, and the client's base URL afterwards. -/
structure CompleteTrace where
  result : Outcome
  attempts : List (String × JsonV)
  deltas : List (String × String)
  persisted : List String
  finalBaseUrl : String

/-- Modelled from the spec (§4.3): classify a successful stream: a
throttling finish reason raises RateLimitError, anything else yields the
assembled Turn. -/
def classifyStream (o : StreamOutcome) : Outcome :=
  match o.finishReason with
  | some r => if rateLimitReasons.contains r then .err .rateLimit else .ok ⟨o.text, some r⟩
  | none => .ok ⟨o.text, none⟩

/-- Modelled from the spec (§4.4): the deprecated z.ai path segment and its
replacement. -/
def zaiOldSeg : String := "/api/paas/v4"

/-- Modelled from the spec (§4.4): the replacement path segment for the z.ai
endpoint fallback. -/
def zaiNewSeg : String := "/api/coding/paas/v4"

/-- Replace every occurrence of `old` (leftmost, non-overlapping) in `s` by
`new`; fuel-driven so the kernel can evaluate it. -/
def replaceSegF (fuel : Nat) (old new s : List Char) : List Char :=
  match fuel, s with
  | 0, s => s
  | _, [] => []
  | fuel + 1, c :: cs =>
    if !old.isEmpty && old.isPrefixOf (c :: cs) then
      new ++ replaceSegF fuel old new ((c :: cs).drop old.length)
    else
      c :: replaceSegF fuel old new cs

/-- Replace every occurrence of a segment inside a string. -/
def replaceSeg (s old new : String) : String :=
  ⟨replaceSegF s.toList.length old.toList new.toList s.toList⟩

/-- Modelled from the spec (§4.2, §4.3, §4.4, §4.5): one `complete()` call.
The transport is abstracted as a function from (url, payload) to a
`ServerResult`.  On a successful exchange the stream outcome is classified
(§4.3).  On an HTTPModelError, exactly one degradation is attempted: if the
body names the vendor's strippable field the payload is rebuilt without it
and resubmitted once; else if the status is 404, the provider is "zai" and
the url contains the deprecated segment, the base URL is rewritten, persisted
once, and the identical payload is resubmitted once at the new URL; any
failure of the resubmission, and any other error, propagates unchanged. -/
def complete (v : Vendor) (cfg : RequestConfig) (conv : Conversation)
    (server : String → JsonV → ServerResult) : CompleteTrace :=
  let url₁ := requestUrl v cfg.baseUrl
  let p₁ := buildPayload v cfg conv false
  match server url₁ p₁ with
  | .ok frames =>
      let o := runStream frames
      ⟨classifyStream o, [(url₁, p₁)], o.deltas, [], cfg.baseUrl⟩
  | .httpErr status body =>
      if bodyNames (strippableField v) body then
        let p₂ := buildPayload v cfg conv true
        match server url₁ p₂ with
        | .ok frames =>
            let o := runStream frames
            ⟨classifyStream o, [(url₁, p₁), (url₁, p₂)], o.deltas, [], cfg.baseUrl⟩
        | .httpErr s₂ b₂ =>
            ⟨.err (.httpError s₂ b₂), [(url₁, p₁), (url₁, p₂)], [], [], cfg.baseUrl⟩
      else if status == 404 && (cfg.provider == "zai") && containsSeg url₁ (zaiOldSeg ++ "/") then
        let newBase := replaceSeg cfg.baseUrl zaiOldSeg zaiNewSeg
        let url₂ := requestUrl v newBase
        match server url₂ p₁ with
        | .ok frames =>
            let o := runStream frames
            ⟨classifyStream o, [(url₁, p₁), (url₂, p₁)], o.deltas, [newBase], newBase⟩
        | .httpErr s₂ b₂ =>
            ⟨.err (.httpError s₂ b₂), [(url₁, p₁), (url₂, p₁)], [], [newBase], newBase⟩
      else
        ⟨.err (.httpError status body), [(url₁, p₁)], [], [], cfg.baseUrl⟩

theorem textConcat_append (a b : List (String × String)) :
    textConcat (a ++ b) = textConcat a ++ textConcat b := by
  induction a with
  | nil => simp [textConcat]
  | cons d ds ih => simp [textConcat, ih, String.append_assoc]

theorem stepFold_text (frames : List Frame) :
    ∀ acc : StreamOutcome, textConcat acc.deltas = acc.text →
      textConcat (frames.foldl stepFrame acc).deltas = (frames.foldl stepFrame acc).text := by
  induction frames with
  | nil => intro acc h; simpa using h
  | cons fr fs ih =>
    intro acc h
    simp only [List.foldl_cons]
    apply ih
    cases hrc : fr.reasoningContent <;> cases hc : fr.content <;>
      simp [stepFrame, hrc, hc, textConcat_append, textConcat, h]

theorem runStream_text (frames : List Frame) :
    textConcat (runStream frames).deltas = (runStream frames).text :=
  stepFold_text frames ⟨[], "", none⟩ rfl

theorem classifyStream_ok_text (o : StreamOutcome) (t : Turn)
    (h : classifyStream o = .ok t) : t.text = o.text := by
  unfold classifyStream at h
  cases hf : o.finishReason with
  | none =>
    rw [hf] at h
    injection h with h'
    rw [← h']
  | some r =>
    rw [hf] at h
    have h' : (if rateLimitReasons.contains r = true then Outcome.err ClientError.rateLimit
        else Outcome.ok ⟨o.text, some r⟩) = Outcome.ok t := h
    by_cases hr : rateLimitReasons.contains r = true
    · rw [if_pos hr] at h'
      exact Outcome.noConfusion h'
    · rw [if_neg hr] at h'
      injection h' with h''
      rw [← h'']

theorem complete_eq_of_ok (v : Vendor) (cfg : RequestConfig) (conv : Conversation)
    (server : String → JsonV → ServerResult) (frames : List Frame)
    (h1 : server (requestUrl v cfg.baseUrl) (buildPayload v cfg conv false) = .ok frames) :
    complete v cfg conv server
      = ⟨classifyStream (runStream frames),
         [(requestUrl v cfg.baseUrl, buildPayload v cfg conv false)],
         (runStream frames).deltas, [], cfg.baseUrl⟩ := by
  simp only [complete]
  rw [h1]

theorem complete_eq_of_strip (v : Vendor) (cfg : RequestConfig) (conv : Conversation)
    (server : String → JsonV → ServerResult) (status : Nat) (body : String)
    (h1 : server (requestUrl v cfg.baseUrl) (buildPayload v cfg conv false)
            = .httpErr status body)
    (h2 : bodyNames (strippableField v) body = true) :
    complete v cfg conv server
      = match server (requestUrl v cfg.baseUrl) (buildPayload v cfg conv true) with
        | .ok frames =>
            ⟨classifyStream (runStream frames),
             [(requestUrl v cfg.baseUrl, buildPayload v cfg conv false),
              (requestUrl v cfg.baseUrl, buildPayload v cfg conv true)],
             (runStream frames).deltas, [], cfg.baseUrl⟩
        | .httpErr s₂ b₂ =>
            ⟨.err (.httpError s₂ b₂),
             [(requestUrl v cfg.baseUrl, buildPayload v cfg conv false),
              (requestUrl v cfg.baseUrl, buildPayload v cfg conv true)],
             [], [], cfg.baseUrl⟩ := by
  simp only [complete]
  rw [h1]
  dsimp only
  rw [if_pos h2]

theorem complete_eq_of_zai (v : Vendor) (cfg : RequestConfig) (conv : Conversation)
    (server : String → JsonV → ServerResult) (status : Nat) (body : String)
    (h1 : server (requestUrl v cfg.baseUrl) (buildPayload v cfg conv false)
            = .httpErr status body)
    (h2 : bodyNames (strippableField v) body = false)
    (hz : (status == 404 && (cfg.provider == "zai")
            && containsSeg (requestUrl v cfg.baseUrl) (zaiOldSeg ++ "/")) = true) :
    complete v cfg conv server
      = match server (requestUrl v (replaceSeg cfg.baseUrl zaiOldSeg zaiNewSeg))
            (buildPayload v cfg conv false) with
        | .ok frames =>
            ⟨classifyStream (runStream frames),
             [(requestUrl v cfg.baseUrl, buildPayload v cfg conv false),
              (requestUrl v (replaceSeg cfg.baseUrl zaiOldSeg zaiNewSeg),
               buildPayload v cfg conv false)],
             (runStream frames).deltas,
             [replaceSeg cfg.baseUrl zaiOldSeg zaiNewSeg],
             replaceSeg cfg.baseUrl zaiOldSeg zaiNewSeg⟩
        | .httpErr s₂ b₂ =>
            ⟨.err (.httpError s₂ b₂),
             [(requestUrl v cfg.baseUrl, buildPayload v cfg conv false),
              (requestUrl v (replaceSeg cfg.baseUrl zaiOldSeg zaiNewSeg),
               buildPayload v cfg conv false)],
             [],
             [replaceSeg cfg.baseUrl zaiOldSeg zaiNewSeg],
             replaceSeg cfg.baseUrl zaiOldSeg zaiNewSeg⟩ := by
  simp only [complete]
  rw [h1]
  dsimp only
  rw [if_neg (by simp [h2]), if_pos hz]

theorem complete_eq_of_err (v : Vendor) (cfg : RequestConfig) (conv : Conversation)
    (server : String → JsonV → ServerResult) (status : Nat) (body : String)
    (h1 : server (requestUrl v cfg.baseUrl) (buildPayload v cfg conv false)
            = .httpErr status body)
    (h2 : bodyNames (strippableField v) body = false)
    (hz : (status == 404 && (cfg.provider == "zai")
            && containsSeg (requestUrl v cfg.baseUrl) (zaiOldSeg ++ "/")) = false) :
    complete v cfg conv server
      = ⟨.err (.httpError status body),
         [(requestUrl v cfg.baseUrl, buildPayload v cfg conv false)],
         [], [], cfg.baseUrl⟩ := by
  simp only [complete]
  rw [h1]
  dsimp only
  rw [if_neg (by simp [h2]), if_neg (by simp [hz])]

/-- C1: for every successful `complete()` call, the concatenation, in
emission order, of the fragments of all text-kind DeltaEvents handed to
`on_content_delta` equals the text field of the returned Turn exactly
(thinking-kind deltas are excluded from the concatenation). -/
theorem complete_text_deltas_eq_turn_text (v : Vendor) (cfg : RequestConfig)
    (conv : Conversation) (server : String → JsonV → ServerResult) (t : Turn)
    (h : (complete v cfg conv server).result = .ok t) :
    textConcat (complete v cfg conv server).deltas = t.text := by
  cases hs : server (requestUrl v cfg.baseUrl) (buildPayload v cfg conv false) with
  | ok frames =>
    rw [complete_eq_of_ok v cfg conv server frames hs] at h ⊢
    exact (runStream_text frames).trans (classifyStream_ok_text _ t h).symm
  | httpErr status body =>
    by_cases hb : bodyNames (strippableField v) body = true
    · rw [complete_eq_of_strip v cfg conv server status body hs hb] at h ⊢
      cases hs₂ : server (requestUrl v cfg.baseUrl) (buildPayload v cfg conv true) with
      | ok frames₂ =>
        rw [hs₂] at h
        have h' : classifyStream (runStream frames₂) = Outcome.ok t := h
        show textConcat (runStream frames₂).deltas = t.text
        exact (runStream_text frames₂).trans (classifyStream_ok_text _ t h').symm
      | httpErr s₂ b₂ =>
        rw [hs₂] at h
        have h' : Outcome.err (.httpError s₂ b₂) = Outcome.ok t := h
        exact Outcome.noConfusion h'
    · have hbf : bodyNames (strippableField v) body = false := by
        revert hb
        cases bodyNames (strippableField v) body <;> simp
      by_cases hz : (status == 404 && (cfg.provider == "zai")
          && containsSeg (requestUrl v cfg.baseUrl) (zaiOldSeg ++ "/")) = true
      · rw [complete_eq_of_zai v cfg conv server status body hs hbf hz] at h ⊢
        cases hs₂ : server (requestUrl v (replaceSeg cfg.baseUrl zaiOldSeg zaiNewSeg))
            (buildPayload v cfg conv false) with
        | ok frames₂ =>
          rw [hs₂] at h
          have h' : classifyStream (runStream frames₂) = Outcome.ok t := h
          show textConcat (runStream frames₂).deltas = t.text
          exact (runStream_text frames₂).trans (classifyStream_ok_text _ t h').symm
        | httpErr s₂ b₂ =>
          rw [hs₂] at h
          have h' : Outcome.err (.httpError s₂ b₂) = Outcome.ok t := h
          exact Outcome.noConfusion h'
      · have hzf : (status == 404 && (cfg.provider == "zai")
            && containsSeg (requestUrl v cfg.baseUrl) (zaiOldSeg ++ "/")) = false := by
          revert hz
          cases (status == 404 && (cfg.provider == "zai")
            && containsSeg (requestUrl v cfg.baseUrl) (zaiOldSeg ++ "/")) <;> simp
        rw [complete_eq_of_err v cfg conv server status body hs hbf hzf] at h
        exact Outcome.noConfusion h

theorem buildOpenAIPayload_strip (cfg : RequestConfig) (conv : Conversation) :
    buildOpenAIPayload cfg conv true
      = eraseKey (strippableField .openai) (buildOpenAIPayload cfg conv false) := by
  cases hre : cfg.reasoningEffort <;> cases hth : cfg.thinkingType <;>
    simp [buildOpenAIPayload, eraseKey, strippableField, hre, hth]

theorem buildAnthropicPayload_strip (cfg : RequestConfig) (conv : Conversation) :
    buildAnthropicPayload cfg conv true
      = eraseKey (strippableField .anthropic) (buildAnthropicPayload cfg conv false) := by
  cases had : adaptiveThinkingModels.contains cfg.model <;>
    simp only [buildAnthropicPayload, eraseKey, strippableField, had] <;> rfl

theorem buildPayload_strip (v : Vendor) (cfg : RequestConfig) (conv : Conversation) :
    buildPayload v cfg conv true
      = eraseKey (strippableField v) (buildPayload v cfg conv false) := by
  cases v
  · exact buildOpenAIPayload_strip cfg conv
  · exact buildAnthropicPayload_strip cfg conv

/-- C2: when the first attempt fails with an HTTPModelError whose body names
the vendor's rejected field, the client rebuilds the payload without exactly
that field (all other fields unchanged) and resubmits exactly once; the Turn
reflects the second response, and any failure of the resubmission propagates
to the caller with no further stripping attempted. -/
theorem complete_strips_rejected_field_once (v : Vendor) (cfg : RequestConfig)
    (conv : Conversation) (server : String → JsonV → ServerResult)
    (status : Nat) (body : String)
    (h1 : server (requestUrl v cfg.baseUrl) (buildPayload v cfg conv false)
            = .httpErr status body)
    (h2 : bodyNames (strippableField v) body = true) :
    buildPayload v cfg conv true
        = eraseKey (strippableField v) (buildPayload v cfg conv false) ∧
    (complete v cfg conv server).attempts
        = [(requestUrl v cfg.baseUrl, buildPayload v cfg conv false),
           (requestUrl v cfg.baseUrl, buildPayload v cfg conv true)] ∧
    (∀ frames,
       server (requestUrl v cfg.baseUrl) (buildPayload v cfg conv true) = .ok frames →
         (complete v cfg conv server).result = classifyStream (runStream frames)) ∧
    (∀ s₂ b₂,
       server (requestUrl v cfg.baseUrl) (buildPayload v cfg conv true) = .httpErr s₂ b₂ →
         (complete v cfg conv server).result = .err (.httpError s₂ b₂)) := by
  have he := complete_eq_of_strip v cfg conv server status body h1 h2
  refine ⟨buildPayload_strip v cfg conv, ?_, ?_, ?_⟩
  · rw [he]
    cases hs₂ : server (requestUrl v cfg.baseUrl) (buildPayload v cfg conv true) <;> rfl
  · intro frames hf
    rw [he, hf]
  · intro s₂ b₂ hf
    rw [he, hf]

/-- C3: when the first attempt fails with status 404, the provider is "zai"
and the request URL contains the deprecated `/api/paas/v4/` segment, the
client substitutes `/api/coding/paas/v4` in its base URL, persists exactly
that new base URL exactly once via `on_base_url_persist`, updates its
in-memory base URL, and resubmits exactly once against the new URL; the
returned Turn is the second response's result. -/
theorem complete_zai_endpoint_fallback (v : Vendor) (cfg : RequestConfig)
    (conv : Conversation) (server : String → JsonV → ServerResult) (body : String)
    (h1 : server (requestUrl v cfg.baseUrl) (buildPayload v cfg conv false)
            = .httpErr 404 body)
    (h2 : bodyNames (strippableField v) body = false)
    (h3 : cfg.provider = "zai")
    (h4 : containsSeg (requestUrl v cfg.baseUrl) (zaiOldSeg ++ "/") = true) :
    (complete v cfg conv server).persisted
        = [replaceSeg cfg.baseUrl zaiOldSeg zaiNewSeg] ∧
    (complete v cfg conv server).finalBaseUrl
        = replaceSeg cfg.baseUrl zaiOldSeg zaiNewSeg ∧
    (complete v cfg conv server).attempts
        = [(requestUrl v cfg.baseUrl, buildPayload v cfg conv false),
           (requestUrl v (replaceSeg cfg.baseUrl zaiOldSeg zaiNewSeg),
            buildPayload v cfg conv false)] ∧
    (∀ frames,
       server (requestUrl v (replaceSeg cfg.baseUrl zaiOldSeg zaiNewSeg))
           (buildPayload v cfg conv false) = .ok frames →
         (complete v cfg conv server).result = classifyStream (runStream frames)) := by
  have hz : ((404 : Nat) == 404 && (cfg.provider == "zai")
      && containsSeg (requestUrl v cfg.baseUrl) (zaiOldSeg ++ "/")) = true := by
    rw [h3, h4]
    rfl
  have he := complete_eq_of_zai v cfg conv server 404 body h1 h2 hz
  refine ⟨?_, ?_, ?_, ?_⟩
  · rw [he]
    cases hs₂ : server (requestUrl v (replaceSeg cfg.baseUrl zaiOldSeg zaiNewSeg))
        (buildPayload v cfg conv false) <;> rfl
  · rw [he]
    cases hs₂ : server (requestUrl v (replaceSeg cfg.baseUrl zaiOldSeg zaiNewSeg))
        (buildPayload v cfg conv false) <;> rfl
  · rw [he]
    cases hs₂ : server (requestUrl v (replaceSeg cfg.baseUrl zaiOldSeg zaiNewSeg))
        (buildPayload v cfg conv false) <;> rfl
  · intro frames hf
    rw [he, hf]

/-- C4: when the vendor-reported finish/stop reason of an otherwise
successful response signals throttling, `complete()` raises RateLimitError
immediately: no transport retry and no degradation attempt is made (exactly
one attempt, nothing persisted). -/
theorem complete_rate_limit_no_retry (v : Vendor) (cfg : RequestConfig)
    (conv : Conversation) (server : String → JsonV → ServerResult)
    (frames : List Frame) (r : String)
    (h1 : server (requestUrl v cfg.baseUrl) (buildPayload v cfg conv false)
            = .ok frames)
    (h2 : (runStream frames).finishReason = some r)
    (h3 : rateLimitReasons.contains r = true) :
    (complete v cfg conv server).result = .err .rateLimit ∧
    (complete v cfg conv server).attempts
        = [(requestUrl v cfg.baseUrl, buildPayload v cfg conv false)] ∧
    (complete v cfg conv server).persisted = [] := by
  have he := complete_eq_of_ok v cfg conv server frames h1
  have hcl : classifyStream (runStream frames) = .err .rateLimit := by
    unfold classifyStream
    rw [h2]
    show (if rateLimitReasons.contains r = true then Outcome.err ClientError.rateLimit
        else Outcome.ok ⟨(runStream frames).text, some r⟩) = Outcome.err ClientError.rateLimit
    rw [if_pos h3]
  refine ⟨?_, ?_, ?_⟩
  · rw [he]
    exact hcl
  · rw [he]
  · rw [he]

/-- C5: every Anthropic payload for a model in the adaptive-thinking
capability class contains `thinking: {type: adaptive}` and
`output_config: {effort: level}` and no `temperature` key; for every other
model it contains `thinking: {type: enabled, budget_tokens: N}` with N
derived from the reasoning-effort level, and effort "medium" yields
N = 4096. -/
theorem anthropic_thinking_payload_shape (cfg : RequestConfig) (conv : Conversation) :
    (adaptiveThinkingModels.contains cfg.model = true →
       getKey "thinking" (buildAnthropicPayload cfg conv false)
           = some (.obj [("type", .str "adaptive")]) ∧
       getKey "output_config" (buildAnthropicPayload cfg conv false)
           = some (.obj [("effort", .str (cfg.reasoningEffort.getD ("medium")))]) ∧
       getKey "temperature" (buildAnthropicPayload cfg conv false) = none) ∧
    (adaptiveThinkingModels.contains cfg.model = false →
       getKey "thinking" (buildAnthropicPayload cfg conv false)
           = some (.obj [("type", .str "enabled"),
                         ("budget_tokens",
                          .num (thinkingBudget (cfg.reasoningEffort.getD ("medium"))))])) ∧
    thinkingBudget "medium" = 4096 := by
  refine ⟨?_, ?_, rfl⟩ <;> intro had <;>
    simp only [buildAnthropicPayload, had] <;>
    first
    | exact ⟨rfl, rfl, rfl⟩
    | rfl

/-- C6: the payload builder is a pure function: building the request payload
twice from an identical (Conversation, RequestConfig) pair yields
byte-identical serialized JSON bodies; the builder holds no state across
calls. -/
theorem payload_build_deterministic (v : Vendor) (conv conv' : Conversation)
    (cfg cfg' : RequestConfig) (h1 : conv = conv') (h2 : cfg = cfg') :
    serializeV (buildPayload v cfg conv false)
      = serializeV (buildPayload v cfg' conv' false) := by
  subst h1
  subst h2
  rfl

/-- Test fixture: a two-message conversation. -/
def convW : Conversation := [⟨"system", "sys"⟩, ⟨"user", "user msg"⟩]

/-- Test fixture: an OpenAI-compatible configuration with reasoning effort. -/
def cfgW : RequestConfig :=
  ⟨"gpt-5.2", "k", "https://api.openai.com/v1", "openai", some ("high"), none, 3⟩

/-- Test fixture: a successful frame stream producing the text "ok". -/
def framesW : List Frame := [⟨some ("ok"), none, none⟩, ⟨none, none, some ("stop")⟩]

/-- Test fixture: a server that always succeeds with `framesW`. -/
def serverW1 : String → JsonV → ServerResult := fun _ _ => .ok framesW

/-- Witness for C1 at a concrete call. -/
theorem complete_text_deltas_eq_turn_text_witness :
    (complete .openai cfgW convW serverW1).result = .ok ⟨"ok", some ("stop")⟩ ∧
    textConcat (complete .openai cfgW convW serverW1).deltas
      = (Turn.mk ("ok") (some ("stop"))).text :=
  ⟨rfl, complete_text_deltas_eq_turn_text .openai cfgW convW serverW1 ⟨"ok", some ("stop")⟩ rfl⟩

/-- Test fixture: a server that rejects any payload carrying
`reasoning_effort` and accepts the stripped resubmission. -/
def serverW2 : String → JsonV → ServerResult := fun _ p =>
  match getKey ("reasoning_effort") p with
  | some _ => .httpErr 400 "unsupported parameter reasoning_effort"
  | none => .ok framesW

/-- Witness for C2 at a concrete call. -/
theorem complete_strips_rejected_field_once_witness :
    buildPayload .openai cfgW convW true
        = eraseKey (strippableField .openai) (buildPayload .openai cfgW convW false) ∧
    (complete .openai cfgW convW serverW2).attempts
        = [(requestUrl .openai cfgW.baseUrl, buildPayload .openai cfgW convW false),
           (requestUrl .openai cfgW.baseUrl, buildPayload .openai cfgW convW true)] ∧
    (complete .openai cfgW convW serverW2).result = classifyStream (runStream framesW) :=
  have h := complete_strips_rejected_field_once .openai cfgW convW serverW2 400
    ("unsupported parameter reasoning_effort") rfl (by decide)
  ⟨h.1, h.2.1, h.2.2.1 framesW rfl⟩

/-- Test fixture: a z.ai configuration on the deprecated endpoint. -/
def cfgW3 : RequestConfig :=
  ⟨"glm-5", "k", "https://api.z.ai/api/paas/v4", "zai", none, none, 3⟩

/-- Test fixture: a server that 404s every URL on the deprecated segment and
accepts the fallback URL. -/
def serverW3 : String → JsonV → ServerResult := fun u _ =>
  if containsSeg u (zaiOldSeg ++ "/") then .httpErr 404 "not found" else .ok framesW

/-- Witness for C3 at the concrete test call. -/
theorem complete_zai_endpoint_fallback_witness :
    replaceSeg cfgW3.baseUrl zaiOldSeg zaiNewSeg = "https://api.z.ai/api/coding/paas/v4" ∧
    (complete .openai cfgW3 convW serverW3).persisted
        = [replaceSeg cfgW3.baseUrl zaiOldSeg zaiNewSeg] ∧
    (complete .openai cfgW3 convW serverW3).finalBaseUrl
        = replaceSeg cfgW3.baseUrl zaiOldSeg zaiNewSeg ∧
    (complete .openai cfgW3 convW serverW3).result = classifyStream (runStream framesW) :=
  have h := complete_zai_endpoint_fallback .openai cfgW3 convW serverW3
    ("not found") rfl (by decide) rfl (by decide)
  ⟨rfl, h.1, h.2.1, h.2.2.2 framesW rfl⟩

/-- Test fixture: a frame stream whose finish reason signals throttling. -/
def framesRL : List Frame := [⟨some ("partial"), none, some ("rate_limit")⟩]

/-- Test fixture: a server that always answers with the rate-limited frame
stream. -/
def serverW4 : String → JsonV → ServerResult := fun _ _ => .ok framesRL

/-- Witness for C4 at a concrete call. -/
theorem complete_rate_limit_no_retry_witness :
    (complete .openai cfgW convW serverW4).result = .err .rateLimit ∧
    (complete .openai cfgW convW serverW4).attempts
        = [(requestUrl .openai cfgW.baseUrl, buildPayload .openai cfgW convW false)] ∧
    (complete .openai cfgW convW serverW4).persisted = [] :=
  complete_rate_limit_no_retry .openai cfgW convW serverW4 framesRL
    ("rate_limit") rfl rfl (by decide)

/-- Test fixture: an adaptive-thinking Anthropic configuration. -/
def cfgA : RequestConfig :=
  ⟨"claude-opus-4-6", "k", "https://api.anthropic.com", "anthropic", some ("high"), none, 3⟩

/-- Test fixture: a non-adaptive Anthropic configuration at medium effort. -/
def cfgS : RequestConfig :=
  ⟨"claude-sonnet-4-5", "k", "https://api.anthropic.com", "anthropic", some ("medium"), none, 3⟩

/-- Witness for C5 at the two concrete test configurations. -/
theorem anthropic_thinking_payload_shape_witness :
    (getKey "thinking" (buildAnthropicPayload cfgA convW false)
        = some (.obj [("type", .str "adaptive")]) ∧
     getKey "output_config" (buildAnthropicPayload cfgA convW false)
        = some (.obj [("effort", .str (cfgA.reasoningEffort.getD ("medium")))]) ∧
     getKey "temperature" (buildAnthropicPayload cfgA convW false) = none) ∧
    getKey "thinking" (buildAnthropicPayload cfgS convW false)
        = some (.obj [("type", .str "enabled"),
                      ("budget_tokens",
                       .num (thinkingBudget (cfgS.reasoningEffort.getD ("medium"))))]) :=
  ⟨(anthropic_thinking_payload_shape cfgA convW).1 (by decide),
   (anthropic_thinking_payload_shape cfgS convW).2.1 (by decide)⟩

/-- Witness for C6 at a concrete pair. -/
theorem payload_build_deterministic_witness :
    serializeV (buildPayload .openai cfgW convW false)
      = serializeV (buildPayload .openai cfgW convW false) :=
  payload_build_deterministic .openai convW convW cfgW cfgW rfl rfl

end Model

namespace Demo

/-- U+2588 FULL BLOCK, the censoring character of `agent/demo.py`. -/
def blockChar : Char := '█'

/-- The `[A-Z]` character class of the entity regexes. -/
def isUpperAZ (c : Char) : Bool := 65 ≤ c.toNat && c.toNat ≤ 90

/-- The `[a-z]` character class of the entity regexes. -/
def isLowerAZ (c : Char) : Bool := 97 ≤ c.toNat && c.toNat ≤ 122

/-- The `[ \t]` character class of the entity regexes. -/
def isSpaceTab (c : Char) : Bool := c == ' ' || c == '\t'

/-- Python `\w` (used by `\b`), modelled on its ASCII fragment
`[A-Za-z0-9_]`.  Every character the patterns and tables mention is ASCII
except U+2588, which is not a word character in either semantics. -/
def isWordChar (c : Char) : Bool := c.isAlphanum || c == '_'

/-- Boundary `\b` before a match whose first character is a word character:
holds at the start of the text or after a non-word character. -/
def startBoundary : Option Char → Bool
  | none => true
  | some c => !isWordChar c

/-- Boundary `\b` after a match whose last character is a word character:
holds at the end of the text or before a non-word character. -/
def endBoundary : List Char → Bool
  | [] => true
  | c :: _ => !isWordChar c

/-- One `[A-Z][a-z]+` word at the head of the text (greedy, maximal
lowercase run): its length and the rest of the text. -/
def capword : List Char → Option (Nat × List Char)
  | [] => none
  | c :: cs =>
    if isUpperAZ c then
      let lo := cs.takeWhile isLowerAZ
      if lo.length == 0 then none
      else some (1 + lo.length, cs.dropWhile isLowerAZ)
    else none

/-- One `[ \t]+[A-Z][a-z]+` repetition at the head of the text (greedy,
maximal space run): its length and the rest. -/
def sepsCap (s : List Char) : Option (Nat × List Char) :=
  let sp := s.takeWhile isSpaceTab
  if sp.length == 0 then none
  else
    match capword (s.dropWhile isSpaceTab) with
    | some (n, r) => some (sp.length + n, r)
    | none => none

/-- Greedy `(?:[ \t]+[A-Z][a-z]+)*`: the lengths of the successive
repetitions and the rest of the text; fuel-driven structural recursion
(each repetition consumes at least one character, so `s.length` fuel is
always enough). -/
def greedyRepsF : Nat → List Char → List Nat × List Char
  | 0, s => ([], s)
  | fuel + 1, s =>
    match sepsCap s with
    | some (n, r) =>
      let p := greedyRepsF fuel r
      (n :: p.1, p.2)
    | none => ([], s)

/-- Greedy repetition run with sufficient fuel. -/
def greedyReps (s : List Char) : List Nat × List Char := greedyRepsF s.length s

/-- Match of `_RE_MULTI_CAP` = `\b([A-Z][a-z]+(?:[ \t]+[A-Z][a-z]+)+)\b` at
the head of `s`, where `prev` is the character just before `s` in the
original text; returns the match length.  This reproduces the Python
backtracking on this pattern: `[a-z]+` and `[ \t]+` runs are maximal
(shrinking them can never repair a later failure because the next character
stays a word character, resp. fails `[A-Z]`), and if the trailing `\b` fails
after the last repetition the engine drops exactly one repetition, after
which `\b` holds because the previous word is followed by a space. -/
def multicapAt (prev : Option Char) (s : List Char) : Option Nat :=
  if startBoundary prev then
    match capword s with
    | some (n1, r1) =>
      match greedyReps r1 with
      | ([], _) => none
      | (reps, rest) =>
        if endBoundary rest then some (n1 + reps.sum)
        else if reps.length ≥ 2 then some (n1 + reps.dropLast.sum)
        else none
    | none => none
  else none

/-- Titles of `_RE_TITLED`, in the order of the Python alternation. -/
def titles : List (List Char) :=
  [("Dr").toList, ("Mr").toList, ("Mrs").toList, ("Ms").toList, ("Prof").toList,
   ("Rev").toList, ("Sen").toList, ("Rep").toList, ("Gov").toList, ("Mayor").toList,
   ("Judge").toList, ("Chief").toList, ("Officer").toList, ("Det").toList,
   ("Sgt").toList, ("Lt").toList, ("Cpt").toList, ("Cmdr").toList, ("Supt").toList]

/-- Continuation of `_RE_TITLED` after a title:
`\.?[ \t]+[A-Z][a-z]+(?:[ \t]+[A-Z][a-z]+)*` then the trailing `\b`, with
the one-repetition drop on a failing trailing `\b`.  When a dot is present
`\.?` consumes it; the dotless alternative then fails immediately because
`[ \t]+` cannot match the dot, exactly as the Python engine backtracks. -/
def titledCont (s : List Char) : Option Nat :=
  let dotted : Nat × List Char :=
    match s with
    | '.' :: cs => (1, cs)
    | _ => (0, s)
  let sp := dotted.2.takeWhile isSpaceTab
  if sp.length == 0 then none
  else
    match capword (dotted.2.dropWhile isSpaceTab) with
    | none => none
    | some (n1, r1) =>
      match greedyReps r1 with
      | (reps, rest) =>
        if endBoundary rest then some (dotted.1 + sp.length + n1 + reps.sum)
        else
          match reps with
          | [] => none
          | _ => some (dotted.1 + sp.length + n1 + reps.dropLast.sum)

/-- The alternation of `_RE_TITLED`: alternatives are tried left to right;
the first title that is a prefix of the text and whose continuation
succeeds wins (so `Mr` is tried, and fails, on `Mrs. Smith` before `Mrs`
succeeds). -/
def tryTitles : List (List Char) → List Char → Option Nat
  | [], _ => none
  | t :: ts, s =>
    if t.isPrefixOf s then
      match titledCont (s.drop t.length) with
      | some n => some (t.length + n)
      | none => tryTitles ts s
    else tryTitles ts s

/-- Match of `_RE_TITLED` at the head of `s` with preceding character
`prev`. -/
def titledAt (prev : Option Char) (s : List Char) : Option Nat :=
  if startBoundary prev then tryTitles titles s else none

/-- `_ENTITY_WHITELIST` of `agent/demo.py`. -/
def entityWhitelist : List (List Char) :=
  [("January").toList, ("February").toList, ("March").toList, ("April").toList,
   ("May").toList, ("June").toList, ("July").toList, ("August").toList,
   ("September").toList, ("October").toList, ("November").toList, ("December").toList,
   ("Monday").toList, ("Tuesday").toList, ("Wednesday").toList, ("Thursday").toList,
   ("Friday").toList, ("Saturday").toList, ("Sunday").toList,
   ("Python").toList, ("Java").toList, ("JavaScript").toList, ("TypeScript").toList,
   ("Visual Studio").toList, ("Open Source").toList, ("Machine Learning").toList,
   ("Deep Learning").toList, ("Natural Language").toList, ("Large Language").toList,
   ("Artificial Intelligence").toList, ("Stack Overflow").toList,
   ("Pull Request").toList, ("Code Review").toList,
   ("Unit Test").toList, ("Test Case").toList, ("Test Suite").toList,
   ("Step").toList, ("Provider").toList, ("Model").toList, ("Reasoning").toList,
   ("Workspace").toList, ("Session").toList, ("Token").toList, ("Tokens").toList,
   ("Type").toList, ("Commands").toList,
   ("Open Planter").toList, ("Rich Text").toList]

/-- `DemoCensor._replace_entity`: an exact whitelist hit, or any whitelisted
term occurring as a sub-phrase of the match, passes the match through
unchanged; anything else becomes a same-length run of block characters. -/
def replaceEntity (m : List Char) : List Char :=
  if entityWhitelist.contains m
      || entityWhitelist.any (fun term => Model.hasSeg m term) then m
  else List.replicate m.length blockChar

/-- Fuel-driven `re.sub`: scan the original text left to right; at each
position try the matcher (`prev` is the original character just before the
position); on a match, emit its replacement and resume immediately after
the match (its last character becoming `prev`); otherwise copy one
character.  Matching is always against the original text, as in Python,
where `re.sub` locates all matches on its input string.  A match of length
zero is treated as no match; both embedded matchers only ever return
positive lengths. -/
def subGoF (matchAt : Option Char → List Char → Option Nat)
    (repl : List Char → List Char) : Nat → Option Char → List Char → List Char
  | 0, _, s => s
  | _ + 1, _, [] => []
  | fuel + 1, prev, c :: cs =>
    match matchAt prev (c :: cs) with
    | some (n + 1) =>
      repl ((c :: cs).take (n + 1))
        ++ subGoF matchAt repl fuel (((c :: cs).take (n + 1)).getLastD c)
            ((c :: cs).drop (n + 1))
    | _ => c :: subGoF matchAt repl fuel (some c) cs

/-- `re.sub` over a whole text (sufficient fuel, no preceding character). -/
def subText (matchAt : Option Char → List Char → Option Nat)
    (repl : List Char → List Char) (s : List Char) : List Char :=
  subGoF matchAt repl s.length none s

/-- `_GENERIC_PATH_PARTS` of `agent/demo.py`. -/
def genericPathParts : List (List Char) :=
  [("/").toList, ("Users").toList, ("home").toList, ("Documents").toList,
   ("Desktop").toList, ("Downloads").toList, ("Projects").toList, ("repos").toList,
   ("src").toList, ("var").toList, ("tmp").toList, ("opt").toList, ("etc").toList,
   ("Library").toList, ("Applications").toList, ("volumes").toList, ("mnt").toList,
   ("media").toList, ("nix").toList, ("store").toList, ("run").toList, ("snap").toList]

/-- The censor state: the literal replacement table built at construction
(`DemoCensor.__init__` via `_build_path_replacements`). -/
structure DemoCensor where
  replacements : List (List Char × List Char)
  deriving DecidableEq

/-- Stable insertion by original length, descending: a new element goes
after all elements whose original is at least as long, which is exactly the
order Python's stable `sort(key=len, reverse=True)` produces when applied
via repeated insertion. -/
def insertByLen (x : List Char × List Char) :
    List (List Char × List Char) → List (List Char × List Char)
  | [] => [x]
  | y :: ys => if y.1.length ≥ x.1.length then y :: insertByLen x ys else x :: y :: ys

/-- Stable longest-first sort of the replacement table. -/
def sortByLenDesc (l : List (List Char × List Char)) : List (List Char × List Char) :=
  l.foldl (fun acc x => insertByLen x acc) []

/-- `DemoCensor._build_path_replacements`: every workspace path part that is
not generic, not the project name and not empty maps to a same-length run of
block characters; the table is sorted longest-first, stably. -/
def buildPathReplacements (parts : List (List Char)) (projectName : List Char) :
    List (List Char × List Char) :=
  sortByLenDesc
    ((parts.filter (fun part =>
        !genericPathParts.contains part && !(part == projectName) && !part.isEmpty)).map
      (fun part => (part, List.replicate part.length blockChar)))

/-- `DemoCensor.__init__`; `projectName` stands for `workspace.name`, the
last component of the workspace path as pathlib reports it. -/
def mkDemoCensor (parts : List (List Char)) (projectName : List Char) : DemoCensor :=
  ⟨buildPathReplacements parts projectName⟩

/-- `censor_text` step 1: the literal path-segment replacements, applied in
table order; each is Python `str.replace` (all leftmost non-overlapping
occurrences).  The table never holds an empty original (constructor guard),
so the empty-pattern behaviour of `str.replace` is never reached. -/
def applyReplacements (table : List (List Char × List Char)) (t : List Char) : List Char :=
  table.foldl (fun acc pr => Model.replaceSegF acc.length pr.1 pr.2 acc) t

/-- `DemoCensor.censor_text`: literal path replacements, then the titled
substitution (run first so titles win), then the multi-word-capitalised
substitution. -/
def censorText (dc : DemoCensor) (t : List Char) : List Char :=
  subText multicapAt replaceEntity
    (subText titledAt replaceEntity
      (applyReplacements dc.replacements t))

/-- State-passing embedding of the method call `censor_text(self, text)`:
the body reads `self._replacements` and assigns no attribute of `self` or of
any other object, so the censor state comes back unchanged. -/
def censorTextSt (dc : DemoCensor) (t : List Char) : List Char × DemoCensor :=
  (censorText dc t, dc)

example :
    censorText (mkDemoCensor [("/").toList, ("tmp").toList, ("Proj").toList] (("Proj").toList))
      (("Contact John Smith about this.").toList)
      = ("██████████████████ about this.").toList := by decide

example :
    censorText (mkDemoCensor [("/").toList, ("tmp").toList, ("Proj").toList] (("Proj").toList))
      (("Use Machine Learning techniques.").toList)
      = ("Use Machine Learning techniques.").toList := by decide

example :
    censorText (mkDemoCensor [("/").toList, ("tmp").toList, ("Proj").toList] (("Proj").toList))
      (("See Dr. Smith for details.").toList)
      = ("See █████████ for details.").toList := by decide

example :
    censorText
      (mkDemoCensor
        [("/").toList, ("Users").toList, ("johndoe").toList, ("Documents").toList,
         ("MyProject").toList]
        (("MyProject").toList))
      (("Workspace: /Users/johndoe/Documents/MyProject").toList)
      = ("Workspace: /Users/███████/Documents/MyProject").toList := by decide

theorem replaceSegF_length (old new : List Char) (h : new.length = old.length) :
    ∀ fuel s, (Model.replaceSegF fuel old new s).length = s.length := by
  intro fuel
  induction fuel with
  | zero => intro s; cases s <;> rfl
  | succ f ih =>
    intro s
    cases s with
    | nil => rfl
    | cons c cs =>
      show (if !old.isEmpty && old.isPrefixOf (c :: cs) then
              new ++ Model.replaceSegF f old new ((c :: cs).drop old.length)
            else c :: Model.replaceSegF f old new cs).length = (c :: cs).length
      by_cases hp : (!old.isEmpty && old.isPrefixOf (c :: cs)) = true
      · rw [if_pos hp]
        simp only [Bool.and_eq_true] at hp
        have hle : old.length ≤ (c :: cs).length :=
          (List.isPrefixOf_iff_prefix.mp hp.2).length_le
        rw [List.length_append, ih, List.length_drop, h]
        omega
      · rw [if_neg hp]
        rw [List.length_cons, List.length_cons, ih]

theorem subGoF_length (matchAt : Option Char → List Char → Option Nat)
    (repl : List Char → List Char) (hrepl : ∀ m, (repl m).length = m.length) :
    ∀ fuel prev s, (subGoF matchAt repl fuel prev s).length = s.length := by
  intro fuel
  induction fuel with
  | zero => intro prev s; rfl
  | succ f ih =>
    intro prev s
    cases s with
    | nil => rfl
    | cons c cs =>
      simp only [subGoF]
      cases hm : matchAt prev (c :: cs) with
      | none =>
        show (c :: subGoF matchAt repl f (some c) cs).length = (c :: cs).length
        rw [List.length_cons, List.length_cons, ih]
      | some n =>
        cases n with
        | zero =>
          show (c :: subGoF matchAt repl f (some c) cs).length = (c :: cs).length
          rw [List.length_cons, List.length_cons, ih]
        | succ k =>
          show (repl ((c :: cs).take (k + 1))
              ++ subGoF matchAt repl f (((c :: cs).take (k + 1)).getLastD c)
                  ((c :: cs).drop (k + 1))).length = (c :: cs).length
          rw [List.length_append, hrepl, List.length_take, ih, List.length_drop]
          rcases Nat.le_total (k + 1) (c :: cs).length with hle | hle
          · rw [min_eq_left hle]
            omega
          · rw [min_eq_right hle]
            omega

theorem mem_insertByLen {a x : List Char × List Char} :
    ∀ {l}, a ∈ insertByLen x l → a = x ∨ a ∈ l := by
  intro l
  induction l with
  | nil =>
    intro h
    rcases List.mem_cons.mp h with h1 | h1
    · exact Or.inl h1
    · exact absurd h1 (List.not_mem_nil a)
  | cons y ys ih =>
    intro h
    simp only [insertByLen] at h
    split at h
    · rcases List.mem_cons.mp h with h1 | h2
      · exact Or.inr (List.mem_cons.mpr (Or.inl h1))
      · rcases ih h2 with h3 | h4
        · exact Or.inl h3
        · exact Or.inr (List.mem_cons.mpr (Or.inr h4))
    · rcases List.mem_cons.mp h with h1 | h2
      · exact Or.inl h1
      · exact Or.inr h2

theorem mem_foldl_insertByLen {a : List Char × List Char} :
    ∀ (l acc : List (List Char × List Char)),
      a ∈ l.foldl (fun acc x => insertByLen x acc) acc → a ∈ acc ∨ a ∈ l := by
  intro l
  induction l with
  | nil => intro acc h; exact Or.inl h
  | cons x xs ih =>
    intro acc h
    rcases ih (insertByLen x acc) h with h1 | h1
    · rcases mem_insertByLen h1 with h2 | h2
      · exact Or.inr (List.mem_cons.mpr (Or.inl h2))
      · exact Or.inl h2
    · exact Or.inr (List.mem_cons.mpr (Or.inr h1))

theorem mem_sortByLenDesc {a : List Char × List Char}
    {l : List (List Char × List Char)} (h : a ∈ sortByLenDesc l) : a ∈ l := by
  rcases mem_foldl_insertByLen l [] h with h1 | h1
  · exact absurd h1 (List.not_mem_nil a)
  · exact h1

theorem buildPathReplacements_blocks (parts : List (List Char)) (projectName : List Char) :
    ∀ pr ∈ buildPathReplacements parts projectName,
      pr.2 = List.replicate pr.1.length blockChar := by
  intro pr hpr
  rcases List.mem_map.mp (mem_sortByLenDesc hpr) with ⟨part, _, heq⟩
  rw [← heq]

theorem replaceEntity_shape (m : List Char) :
    replaceEntity m = m ∨ replaceEntity m = List.replicate m.length blockChar := by
  unfold replaceEntity
  split
  · exact Or.inl rfl
  · exact Or.inr rfl

theorem replaceEntity_length (m : List Char) : (replaceEntity m).length = m.length := by
  rcases replaceEntity_shape m with h | h <;> rw [h]
  exact List.length_replicate _ _

theorem applyReplacements_length (table : List (List Char × List Char))
    (htable : ∀ pr ∈ table, pr.2.length = pr.1.length) :
    ∀ t, (applyReplacements table t).length = t.length := by
  induction table with
  | nil => intro t; rfl
  | cons pr prs ih =>
    intro t
    show (applyReplacements prs (Model.replaceSegF t.length pr.1 pr.2 t)).length = t.length
    rw [ih (fun q hq => htable q (List.mem_cons.mpr (Or.inr hq))),
        replaceSegF_length pr.1 pr.2 (htable pr (List.mem_cons.mpr (Or.inl rfl))) t.length t]

/-- C8: for every DemoCensor built from any workspace path and every input,
the censored output has exactly the same character length as the input:
every path-segment replacement pairs a segment with a same-length run of
U+2588, and every entity replacement is either the match itself or a
same-length run of U+2588. -/
theorem censor_text_length_preserving (parts : List (List Char))
    (projectName t : List Char) :
    (censorText (mkDemoCensor parts projectName) t).length = t.length ∧
    (∀ pr ∈ (mkDemoCensor parts projectName).replacements,
        pr.2 = List.replicate pr.1.length blockChar) ∧
    ∀ m, replaceEntity m = m ∨ replaceEntity m = List.replicate m.length blockChar := by
  refine ⟨?_, buildPathReplacements_blocks parts projectName, replaceEntity_shape⟩
  show (subText multicapAt replaceEntity
      (subText titledAt replaceEntity
        (applyReplacements (buildPathReplacements parts projectName) t))).length = t.length
  have hsub : ∀ (mAt : Option Char → List Char → Option Nat) (s : List Char),
      (subText mAt replaceEntity s).length = s.length := fun mAt s =>
    subGoF_length mAt replaceEntity replaceEntity_length s.length none s
  rw [hsub, hsub,
    applyReplacements_length _ (fun pr hpr => by
      rw [buildPathReplacements_blocks parts projectName pr hpr]
      exact List.length_replicate _ _)]

/-- Witness for C8 at a concrete censor and input. -/
theorem censor_text_length_preserving_witness :
    (censorText (mkDemoCensor [("/").toList, ("tmp").toList, ("Proj").toList]
        (("Proj").toList)) (("May Sgt Walsh").toList)).length
      = (("May Sgt Walsh").toList).length :=
  (censor_text_length_preserving [("/").toList, ("tmp").toList, ("Proj").toList]
    (("Proj").toList) (("May Sgt Walsh").toList)).1

/-- C7: censoring is pure post-processing: the state-passing embedding of
`censor_text` returns the censor unchanged (the replacement table is
identical before and after every call), its value is the pure function of
the censor and the input, and the output depends only on the replacement
table built at construction. -/
theorem censor_text_pure (dc dc' : DemoCensor) (t : List Char)
    (h : dc.replacements = dc'.replacements) :
    (censorTextSt dc t).2 = dc ∧
    (censorTextSt dc t).1 = censorText dc t ∧
    censorText dc t = censorText dc' t := by
  obtain ⟨r⟩ := dc
  obtain ⟨r'⟩ := dc'
  cases h
  exact ⟨rfl, rfl, rfl⟩

/-- Fixture: the censor of workspace `/tmp/Proj`; its replacement table is
empty because every part is generic or the project name. -/
def cexCensor : DemoCensor :=
  mkDemoCensor [("/").toList, ("tmp").toList, ("Proj").toList] (("Proj").toList)

/-- Fixture: a concrete input on which `censor_text` is not idempotent. -/
def cexInput : List Char := ("Cd Dr. Stepan Dr. Cd").toList

/-- Witness for C7 at a concrete censor and input. -/
theorem censor_text_pure_witness :
    (censorTextSt cexCensor cexInput).2 = cexCensor ∧
    (censorTextSt cexCensor cexInput).1 = censorText cexCensor cexInput ∧
    censorText cexCensor cexInput = censorText cexCensor cexInput :=
  censor_text_pure cexCensor cexCensor cexInput rfl

/-- Pointwise masking: `y` is `x` with some characters replaced by the
block character (in particular `y` has the same length as `x`). -/
def Masked (x y : List Char) : Prop :=
  List.Forall₂ (fun a b => b = a ∨ b = blockChar) x y

theorem masked_refl (x : List Char) : Masked x x :=
  List.forall₂_same.mpr (fun _ _ => Or.inl rfl)

theorem masked_replicate (x : List Char) :
    Masked x (List.replicate x.length blockChar) := by
  induction x with
  | nil => exact List.Forall₂.nil
  | cons c cs ih => exact List.Forall₂.cons (Or.inr rfl) ih

theorem masked_append {a b c d : List Char} (h1 : Masked a b) (h2 : Masked c d) :
    Masked (a ++ c) (b ++ d) := by
  induction h1 with
  | nil => exact h2
  | cons r _ ih => exact List.Forall₂.cons r ih

theorem masked_trans {x y z : List Char} (h1 : Masked x y) (h2 : Masked y z) :
    Masked x z := by
  induction h1 generalizing z with
  | nil =>
    cases h2
    exact List.Forall₂.nil
  | cons r1 _ ih =>
    cases h2 with
    | cons r2 t2 =>
      refine List.Forall₂.cons ?_ (ih t2)
      rcases r2 with h | h
      · rcases r1 with h' | h'
        · exact Or.inl (h.trans h')
        · exact Or.inr (h.trans h')
      · exact Or.inr h

theorem masked_replaceSegF (old : List Char) :
    ∀ fuel s,
      Masked s (Model.replaceSegF fuel old (List.replicate old.length blockChar) s) := by
  intro fuel
  induction fuel with
  | zero =>
    intro s
    cases s with
    | nil => exact masked_refl []
    | cons c cs => exact masked_refl (c :: cs)
  | succ f ih =>
    intro s
    cases s with
    | nil => exact masked_refl []
    | cons c cs =>
      show Masked (c :: cs)
        (if !old.isEmpty && old.isPrefixOf (c :: cs) then
          List.replicate old.length blockChar
            ++ Model.replaceSegF f old (List.replicate old.length blockChar)
                ((c :: cs).drop old.length)
         else c :: Model.replaceSegF f old (List.replicate old.length blockChar) cs)
      by_cases hp : (!old.isEmpty && old.isPrefixOf (c :: cs)) = true
      · rw [if_pos hp]
        simp only [Bool.and_eq_true] at hp
        obtain ⟨rest, hrest⟩ := List.isPrefixOf_iff_prefix.mp hp.2
        have hdrop : (c :: cs).drop old.length = rest := by
          rw [← hrest, List.drop_left]
        rw [hdrop]
        exact hrest ▸ masked_append (masked_replicate old) (ih rest)
      · rw [if_neg hp]
        exact List.Forall₂.cons (Or.inl rfl) (ih cs)

theorem masked_applyReplacements :
    ∀ (table : List (List Char × List Char)),
      (∀ pr ∈ table, pr.2 = List.replicate pr.1.length blockChar) →
      ∀ t, Masked t (applyReplacements table t) := by
  intro table
  induction table with
  | nil => intro _ t; exact masked_refl t
  | cons pr prs ih =>
    intro htable t
    show Masked t (applyReplacements prs (Model.replaceSegF t.length pr.1 pr.2 t))
    refine masked_trans ?_ (ih (fun q hq => htable q (List.mem_cons.mpr (Or.inr hq))) _)
    rw [htable pr (List.mem_cons.mpr (Or.inl rfl))]
    exact masked_replaceSegF pr.1 t.length t

theorem masked_subGoF (matchAt : Option Char → List Char → Option Nat)
    (repl : List Char → List Char)
    (hrepl : ∀ m, repl m = m ∨ repl m = List.replicate m.length blockChar) :
    ∀ fuel prev s, Masked s (subGoF matchAt repl fuel prev s) := by
  intro fuel
  induction fuel with
  | zero => intro prev s; exact masked_refl s
  | succ f ih =>
    intro prev s
    cases s with
    | nil => exact masked_refl []
    | cons c cs =>
      simp only [subGoF]
      cases hm : matchAt prev (c :: cs) with
      | none => exact List.Forall₂.cons (Or.inl rfl) (ih (some c) cs)
      | some n =>
        cases n with
        | zero => exact List.Forall₂.cons (Or.inl rfl) (ih (some c) cs)
        | succ k =>
          have hmask : Masked ((c :: cs).take (k + 1) ++ (c :: cs).drop (k + 1))
              (repl ((c :: cs).take (k + 1))
                ++ subGoF matchAt repl f (((c :: cs).take (k + 1)).getLastD c)
                    ((c :: cs).drop (k + 1))) := by
            refine masked_append ?_ (ih _ _)
            rcases hrepl ((c :: cs).take (k + 1)) with h | h
            · rw [h]
              exact masked_refl _
            · rw [h]
              exact masked_replicate _
          rw [List.take_append_drop] at hmask
          exact hmask

theorem masked_censorText (parts : List (List Char)) (projectName t : List Char) :
    Masked t (censorText (mkDemoCensor parts projectName) t) :=
  masked_trans
    (masked_applyReplacements _ (buildPathReplacements_blocks parts projectName) t)
    (masked_trans
      (masked_subGoF titledAt replaceEntity replaceEntity_shape _ none _)
      (masked_subGoF multicapAt replaceEntity replaceEntity_shape _ none _))

/-- C9 counterexample: `censor_text` is not idempotent.  The censor of
workspace `/tmp/Proj` has an empty replacement table and no segment contains
U+2588, yet on the input `Cd Dr. Stepan Dr. Cd` the first pass censors
`Cd Dr` (a multi-cap match ending at the title of the passed-through titled
match `Dr. Stepan Dr`, which survives because `Stepan` contains the
whitelisted `Step`), after which the second application finds and censors
the newly exposed titled match `Dr. Cd`. -/
theorem censor_text_not_idempotent_cex :
    (∀ p ∈ [("/").toList, ("tmp").toList, ("Proj").toList],
        p.contains blockChar = false) ∧
    censorText cexCensor cexInput = ("█████. Stepan Dr. Cd").toList ∧
    censorText cexCensor (censorText cexCensor cexInput)
        = ("█████. Stepan ██████").toList ∧
    censorText cexCensor (censorText cexCensor cexInput)
        ≠ censorText cexCensor cexInput := by
  decide

/-- C9 as amended: for every DemoCensor built from a workspace path none of
whose segments contains U+2588 and every input, a second application of
`censor_text` to the censored output yields a pointwise masking of it: it
never changes the length and can only replace further characters by U+2588
(full idempotence fails, see the counterexample). -/
theorem censor_text_second_pass_only_masks (parts : List (List Char))
    (projectName t : List Char)
    (_hseg : ∀ p ∈ parts, p.contains blockChar = false) :
    Masked (censorText (mkDemoCensor parts projectName) t)
      (censorText (mkDemoCensor parts projectName)
        (censorText (mkDemoCensor parts projectName) t)) :=
  masked_censorText parts projectName _

/-- Witness for the amended C9 at a concrete censor and input. -/
theorem censor_text_second_pass_only_masks_witness :
    (∀ p ∈ [("/").toList, ("tmp").toList, ("Proj").toList],
        p.contains blockChar = false) ∧
    Masked (censorText cexCensor cexInput)
      (censorText cexCensor (censorText cexCensor cexInput)) :=
  ⟨by decide,
   censor_text_second_pass_only_masks [("/").toList, ("tmp").toList, ("Proj").toList]
     (("Proj").toList) cexInput (by decide)⟩

/-- Fixture: a concrete input refuting the whitelist pass-through claim as
stated over matches of the input. -/
def cexInput10 : List Char := ("May Sgt Walsh").toList

/-- C10 counterexample: the multi-cap regex matches the whole input
`May Sgt Walsh`, which contains the whitelisted term `May`, yet
`censor_text` does not leave that match uncensored: the titled substitution
runs first and censors `Sgt Walsh` inside it. -/
theorem whitelist_passthrough_cex :
    multicapAt none cexInput10 = some cexInput10.length ∧
    (("May").toList) ∈ entityWhitelist ∧
    Model.hasSeg cexInput10 (("May").toList) = true ∧
    censorText cexCensor cexInput10 = ("May █████████").toList ∧
    censorText cexCensor cexInput10 ≠ cexInput10 := by
  decide

/-- C10 as amended: the pass-through holds at the point where the
substitution hands a match to `_replace_entity`: whenever a whitelisted term
occurs as a substring of the matched text, `_replace_entity` returns the
match unchanged, so that occurrence of the substitution leaves it
uncensored. -/
theorem replace_entity_whitelist_passthrough (m term : List Char)
    (h1 : term ∈ entityWhitelist) (h2 : Model.hasSeg m term = true) :
    replaceEntity m = m := by
  unfold replaceEntity
  have hany : entityWhitelist.any (fun u => Model.hasSeg m u) = true :=
    List.any_eq_true.mpr ⟨term, h1, h2⟩
  have hc : (entityWhitelist.contains m
      || entityWhitelist.any (fun u => Model.hasSeg m u)) = true := by
    rw [Bool.or_eq_true]
    exact Or.inr hany
  rw [if_pos hc]

/-- Witness for the amended C10: `May` inside `John Mayer` passes the whole
match through. -/
theorem replace_entity_whitelist_passthrough_witness :
    (("May").toList) ∈ entityWhitelist ∧
    Model.hasSeg (("John Mayer").toList) (("May").toList) = true ∧
    replaceEntity (("John Mayer").toList) = ("John Mayer").toList :=
  ⟨by decide, by decide,
   replace_entity_whitelist_passthrough (("John Mayer").toList) (("May").toList)
     (by decide) (by decide)⟩

end Demo

end OpenPlanter
